import Mathlib

/-!
Shallow embedding of the `ssmshare` repository (src/account.py, src/app.py,
src/utils.py) and verification of its specification claims.

Conventions of the embedding:
* Python exceptions become the `Err` error type and fallible functions
  return `Except Err _`.
* JSON payloads from the inventory service become the `Json` inductive;
  dynamic key access (`d[k]`) becomes `Json.lookup`, which fails with a
  key error when the key is missing and a type error when the value is
  not an object.  Payload fields that the code consumes as strings or
  lists are decoded with `Json.asStr` / `Json.asArr`, per the interface
  shapes in the design document.
* Python dicts become association lists with unique keys, built with
  `dictInsert` (update in place when the key exists, append otherwise)
  and read with `dictLookup` (the semantics of `d[k] = v` and `d[k]`).
* The mutable `App` object becomes the `AppState` record of cache slots;
  each lazy property becomes a state-passing accessor returning the
  produced value (or error), the updated state, and the list of network
  requests issued during the access.
-/

set_option autoImplicit false

universe u v

/-- Errors raised by the embedded code: the `assert` in `Account.number`
(the unsupported-account failure), a missing dictionary key, a payload of
the wrong shape, and a network/transport failure from `requests.get`. -/
inductive Err where
  | unsupportedAccount : Err
  | keyError : String → Err
  | typeError : Err
  | transport : Err
deriving DecidableEq, Repr

/-- JSON values returned by the inventory service. -/
inductive Json where
  | str : String → Json
  | num : Int → Json
  | arr : List Json → Json
  | obj : List (String × Json) → Json
deriving Repr

/-- Python dict read `d[k]`: the value of the first entry with key `k`. -/
def dictLookup {α : Type u} : List (String × α) → String → Option α
  | [], _ => none
  | kv :: rest, k => if k = kv.1 then some kv.2 else dictLookup rest k

/-- Whether a dict holds the key `k`. -/
def containsKey {α : Type u} : List (String × α) → String → Bool
  | [], _ => false
  | kv :: rest, k => kv.1 = k || containsKey rest k

/-- Python dict write `d[k] = v`: update the entry in place when the key
exists, append a new entry otherwise (insertion order preserved). -/
def dictInsert {α : Type u} (d : List (String × α)) (k : String) (v : α) :
    List (String × α) :=
  if containsKey d k then
    d.map (fun kv => if kv.1 = k then (k, v) else kv)
  else
    d ++ [(k, v)]

/-- `element[k]` on a JSON value: key error when the key is absent,
type error when the value is not an object. -/
def Json.lookup : Json → String → Except Err Json
  | .obj kvs, k =>
    match dictLookup kvs k with
    | some v => .ok v
    | none => .error (.keyError k)
  | _, _ => .error .typeError

/-- Decode a JSON value expected to be a string. -/
def Json.asStr : Json → Except Err String
  | .str s => .ok s
  | _ => .error .typeError

/-- Decode a JSON value expected to be an array. -/
def Json.asArr : Json → Except Err (List Json)
  | .arr l => .ok l
  | _ => .error .typeError

/-- Decode a JSON array of strings (the cluster-name list shape of the
cluster-listing response). -/
def Json.asStrList : Json → Except Err (List String)
  | .arr l =>
    match l.mapM Json.asStr with
    | .ok ss => .ok ss
    | .error e => .error e
  | _ => .error .typeError

/-! ## src/utils.py -/

/-- `utils.flatten(self, deeplist)`.  The source is a module-level function
that nonetheless takes a (completely unused) `self` first parameter; the
body is the comprehension `[item for sublist in deeplist for item in
sublist]`, i.e. concatenation of the inner lists in order. -/
def flatten {σ : Type u} {α : Type v} (self : σ) (deeplist : List (List α)) :
    List α :=
  let _ := self
  deeplist.foldr (fun sublist acc => sublist ++ acc) []

/-- `utils.gen_nums` loop: starting from `n`, while `n < 10` yield `n`
and step by 2.  The generator is modelled by the (finite) list of values
it yields. -/
def gen_nums_from (n : Nat) : List Nat :=
  if n < 10 then n :: gen_nums_from (n + 2) else []
termination_by 10 - n
decreasing_by omega

/-- `utils.gen_nums()`: the sequence yielded by one fresh invocation of
the generator (`n` starts at 1). -/
def gen_nums : List Nat :=
  gen_nums_from 1

/-! ## src/account.py -/

/-- An AWS account, holding only its symbolic name. -/
structure Account where
  name : String
deriving DecidableEq, Repr

/-- The static name → number table inside `Account.number`. -/
def accountnumber : List (String × String) :=
  [("prod", "1234567890"), ("test", "0123456789")]

/-- `Account.number`: assert that the name is `prod` or `test` (the
unsupported-account failure), then look the name up in the static table. -/
def Account.number (a : Account) : Except Err String :=
  if a.name = "prod" ∨ a.name = "test" then
    match dictLookup accountnumber a.name with
    | some n => .ok n
    | none => .error (.keyError a.name)
  else
    .error .unsupportedAccount

/-- `Account.__init__`: stores the name, then emits a debug record whose
`format` call eagerly evaluates the `number` property, so a resolution
failure escapes the constructor and no object is produced. -/
def Account.init (name : String) : Except Err Account :=
  match Account.number ⟨name⟩ with
  | .error e => .error e
  | .ok _ => .ok ⟨name⟩

/-! ## src/app.py — stage 4 (region regrouping) -/

/-- A server-group entry `[region, group, instances]` as appended by
`App.servergroups`. -/
abbrev SG := String × String × List String

/-- `x[0]` of a server-group entry: its region. -/
def regionOf (x : SG) : String := x.1

/-- `x[1]` of a server-group entry: its group name. -/
def groupOf (x : SG) : String := x.2.1

/-- `x[2]` of a server-group entry: its instance-id list. -/
def instancesOf (x : SG) : List String := x.2.2

/-- Lexicographic strict order on code-point sequences: the comparison
Python's `<` performs on strings. -/
def charListLt : List Char → List Char → Bool
  | _, [] => false
  | [], _ :: _ => true
  | c :: cs, d :: ds =>
    if c.toNat < d.toNat then true
    else if d.toNat < c.toNat then false
    else charListLt cs ds

/-- Python string comparison `a < b`: lexicographic on code points. -/
def strLt (a b : String) : Bool :=
  charListLt a.data b.data

/-- Insert an entry into a region-sorted list, after every entry whose
region is not greater (so equal regions keep their existing order). -/
def insertByRegion (x : SG) : List SG → List SG
  | [] => [x]
  | y :: ys =>
    if strLt (regionOf x) (regionOf y) then x :: y :: ys
    else y :: insertByRegion x ys

/-- `sorted(groups, key=lambda x: x[0])`: stable ascending sort by region.
Formulated as a left-to-right insertion sort, which computes the same
list as any stable sort by the same key (Python's Timsort included). -/
def sortByRegion (l : List SG) : List SG :=
  l.foldl (fun acc x => insertByRegion x acc) []

/-- Helper for `chunkRuns`: extend the current run headed by `h` (with
`run` holding the rest of the run so far, reversed) while the group name
matches, and start a new run when it changes. -/
def chunkRunsAux (h : SG) (run : List SG) : List SG → List (SG × List SG)
  | [] => [(h, run.reverse)]
  | y :: ys =>
    if groupOf y == groupOf h then chunkRunsAux h (y :: run) ys
    else (h, run.reverse) :: chunkRunsAux y [] ys

/-- `itertools.groupby(sortedgroups, key=lambda x: x[1])`: split the list
into maximal consecutive runs of equal group name; each run is its first
element paired with the remaining elements of the run. -/
def chunkRuns : List SG → List (SG × List SG)
  | [] => []
  | x :: xs => chunkRunsAux x [] xs

/-- Stage-4 computation of `App.instances_by_region`: sort the entries by
region, group the sorted list into consecutive runs by group name, and
for each run execute `by_region[key] = list(value)[0][2]` — a dict write
keyed by the run's group name holding the run's first instance list. -/
def instances_by_region_calc (groups : List SG) : List (String × List String) :=
  (chunkRuns (sortByRegion groups)).foldl
    (fun d run => dictInsert d (groupOf run.1) (instancesOf run.1)) []

/-- The last element of the list satisfying `p` (`getLast?` of the
filtered list); used to state which run's dict write survives. -/
def lastFiltered {α : Type u} (p : α → Bool) : List α → Option α
  | [] => none
  | x :: xs =>
    match lastFiltered p xs with
    | some y => some y
    | none => if p x then some x else none

/-- The three-entry input exhibiting two non-adjacent runs of the same
group name after the region sort. -/
def c1input : List SG :=
  [("a", "g1", ["i-1"]), ("b", "g2", ["i-2"]), ("c", "g1", ["i-3"])]

/-- The spec's own region-regroup example input. -/
def c2input : List SG :=
  [("us-east", "g1", ["i-1"]), ("us-west", "g2", ["i-2"]),
   ("us-east", "g1", ["i-3"])]

/-! ## src/app.py — backend, state and lazy property accessors -/

/-- A network request issued to the inventory service (the two URL
templates, with their interpolated path pieces). -/
inductive Request where
  | clusters (application : String) : Request
  | detail (application account clustername : String) : Request
deriving DecidableEq, Repr

/-- The inventory service as the `App` code observes it: for each of the
two endpoints, the decoded JSON body of `requests.get(...).json()`, or
the error the request raises.  A fixed backend answers every retry of
the same request identically. -/
structure Backend where
  clustersResp : Except Err Json
  detailResp : String → Except Err Json

/-- The mutable state of an `App` object: its identity, plus the four
lazily-filled cache slots (`none` = the `None` sentinel, unset). -/
structure AppState where
  name : String
  account : Account
  clusternames : Option (List String)
  clusterdetails : Option (List (String × Json))
  servergroups : Option (List SG)
  instances_by_region : Option (List (String × List String))

/-- `App.__init__`: store the identity and leave all four cache slots
unset; no network request is issued during construction. -/
def App.init (name : String) (account : Account) : AppState :=
  ⟨name, account, none, none, none, none⟩

/-- The observable outcome of one property access: the produced value or
propagated error, the state of the object afterwards, and the network
requests issued during the access, in order. -/
abbrev Access (α : Type) := Except Err α × AppState × List Request

/-- Stage-1 computation: decode the cluster-listing response and index it
by the account name (`result.json()[self.account.name]`). -/
def clusternamesCalc (b : Backend) (accountName : String) :
    Except Err (List String) :=
  match b.clustersResp with
  | .error e => .error e
  | .ok j =>
    match j.lookup accountName with
    | .error e => .error e
    | .ok v => v.asStrList

/-- `App.clusternames`: return the cached list when the slot is set;
otherwise issue the cluster-listing request, run the stage-1 computation
and cache the result (the slot is written only on success). -/
def getClusternames (b : Backend) (s : AppState) : Access (List String) :=
  match s.clusternames with
  | some v => (.ok v, s, [])
  | none =>
    match clusternamesCalc b s.account.name with
    | .error e => (.error e, s, [Request.clusters s.name])
    | .ok v =>
      (.ok v, { s with clusternames := some v }, [Request.clusters s.name])

/-- The stage-2 fetch loop: for each cluster name in order, issue one
cluster-detail request and write the decoded body into the `details`
dict; on a failed request the loop aborts with the error and the partial
dict is discarded. -/
def fetchDetails (b : Backend) (app acct : String) :
    List String → List (String × Json) →
      Except Err (List (String × Json)) × List Request
  | [], acc => (.ok acc, [])
  | n :: rest, acc =>
    match b.detailResp n with
    | .error e => (.error e, [Request.detail app acct n])
    | .ok j =>
      let r := fetchDetails b app acct rest (dictInsert acc n j)
      (r.1, Request.detail app acct n :: r.2)

/-- `App.clusterdetails`: return the cached dict when the slot is set;
otherwise read `clusternames` (triggering stage 1 when needed), run the
fetch loop over the names, and cache the complete dict on success. -/
def getClusterdetails (b : Backend) (s : AppState) :
    Access (List (String × Json)) :=
  match s.clusterdetails with
  | some v => (.ok v, s, [])
  | none =>
    match getClusternames b s with
    | (.error e, s1, q1) => (.error e, s1, q1)
    | (.ok names, s1, q1) =>
      match fetchDetails b s1.name s1.account.name names [] with
      | (.error e, q2) => (.error e, s1, q1 ++ q2)
      | (.ok d, q2) =>
        (.ok d, { s1 with clusterdetails := some d }, q1 ++ q2)

/-- `[instance['instanceId'] for instance in element['instances']]`. -/
def extractInstances : List Json → Except Err (List String)
  | [] => .ok []
  | j :: rest =>
    match j.lookup "instanceId" with
    | .error e => .error e
    | .ok v =>
      match v.asStr with
      | .error e => .error e
      | .ok i =>
        match extractInstances rest with
        | .error e => .error e
        | .ok tl => .ok (i :: tl)

/-- One `serverGroups` element: read `name`, then `region`, then the
instance-id list, and produce the `[region, group, instances]` entry. -/
def extractElement (j : Json) : Except Err SG :=
  match j.lookup "name" with
  | .error e => .error e
  | .ok gj =>
    match gj.asStr with
    | .error e => .error e
    | .ok group =>
      match j.lookup "region" with
      | .error e => .error e
      | .ok rj =>
        match rj.asStr with
        | .error e => .error e
        | .ok region =>
          match j.lookup "instances" with
          | .error e => .error e
          | .ok ij =>
            match ij.asArr with
            | .error e => .error e
            | .ok il =>
              match extractInstances il with
              | .error e => .error e
              | .ok instances => .ok (region, group, instances)

/-- All entries of one cluster's `serverGroups` array, in order. -/
def extractElements : List Json → Except Err (List SG)
  | [] => .ok []
  | j :: rest =>
    match extractElement j with
    | .error e => .error e
    | .ok g =>
      match extractElements rest with
      | .error e => .error e
      | .ok tl => .ok (g :: tl)

/-- Stage-3 computation over the detail dict (iteration order = insertion
order): read each payload's `serverGroups` array and concatenate the
extracted entries, first cluster first. -/
def extractGroups : List (String × Json) → Except Err (List SG)
  | [] => .ok []
  | kv :: rest =>
    match kv.2.lookup "serverGroups" with
    | .error e => .error e
    | .ok sj =>
      match sj.asArr with
      | .error e => .error e
      | .ok elems =>
        match extractElements elems with
        | .error e => .error e
        | .ok gs =>
          match extractGroups rest with
          | .error e => .error e
          | .ok tl => .ok (gs ++ tl)

/-- `App.servergroups`: return the cached list when the slot is set;
otherwise read `clusterdetails` (triggering earlier stages as needed),
extract the server-group entries and cache them on success. -/
def getServergroups (b : Backend) (s : AppState) : Access (List SG) :=
  match s.servergroups with
  | some v => (.ok v, s, [])
  | none =>
    match getClusterdetails b s with
    | (.error e, s1, q) => (.error e, s1, q)
    | (.ok d, s1, q) =>
      match extractGroups d with
      | .error e => (.error e, s1, q)
      | .ok gs => (.ok gs, { s1 with servergroups := some gs }, q)

/-- `App.instances_by_region`: return the cached mapping when the slot is
set; otherwise read `servergroups` (triggering earlier stages as
needed), run the stage-4 regrouping and cache the result. -/
def getInstancesByRegion (b : Backend) (s : AppState) :
    Access (List (String × List String)) :=
  match s.instances_by_region with
  | some v => (.ok v, s, [])
  | none =>
    match getServergroups b s with
    | (.error e, s1, q) => (.error e, s1, q)
    | (.ok gs, s1, q) =>
      (.ok (instances_by_region_calc gs),
       { s1 with instances_by_region := some (instances_by_region_calc gs) },
       q)

/-! ## Concrete witness data (the spec's end-to-end example) -/

/-- The `test` account of the end-to-end example. -/
def wAccount : Account := ⟨"test"⟩

/-- A fresh view of application `checkout` in the `test` account. -/
def wApp : AppState := App.init "checkout" wAccount

/-- The detail payload of cluster `checkout-test-v001`: one server group
with two instances. -/
def wDetail : Json :=
  .obj [("serverGroups", .arr
    [.obj [("name", .str "checkout-test-v001"),
           ("region", .str "us-east-1"),
           ("instances", .arr
             [.obj [("instanceId", .str "i-aaa")],
              .obj [("instanceId", .str "i-bbb")]])]])]

/-- A healthy inventory backend: the cluster listing names one cluster
under the `test` account, and every detail request answers `wDetail`. -/
def wBackend : Backend :=
  ⟨.ok (.obj [("test", .arr [.str "checkout-test-v001"])]),
   fun _ => .ok wDetail⟩

/-- An unreachable inventory backend: every request fails in transport. -/
def wBadBackend : Backend :=
  ⟨.error .transport, fun _ => .error .transport⟩

/-- `wApp` after stage 1 has been computed and cached. -/
def wApp1 : AppState :=
  ⟨"checkout", wAccount, some ["checkout-test-v001"], none, none, none⟩

/-- `wApp` after stages 1 and 2 have been computed and cached. -/
def wApp2 : AppState :=
  ⟨"checkout", wAccount, some ["checkout-test-v001"],
   some [("checkout-test-v001", wDetail)], none, none⟩

/-- `wApp` after stages 1–3 have been computed and cached. -/
def wApp3 : AppState :=
  ⟨"checkout", wAccount, some ["checkout-test-v001"],
   some [("checkout-test-v001", wDetail)],
   some [("us-east-1", "checkout-test-v001", ["i-aaa", "i-bbb"])], none⟩

/-- `wApp` after all four stages have been computed and cached. -/
def wApp4 : AppState :=
  ⟨"checkout", wAccount, some ["checkout-test-v001"],
   some [("checkout-test-v001", wDetail)],
   some [("us-east-1", "checkout-test-v001", ["i-aaa", "i-bbb"])],
   some [("checkout-test-v001", ["i-aaa", "i-bbb"])]⟩

/-! ## Association-list lemmas -/

lemma dictLookup_map_update {α : Type u} (k : String) (v : α)
    (d : List (String × α)) (h : containsKey d k = true) :
    dictLookup
      (d.map fun kv => if kv.1 = k then (k, v) else kv) k = some v := by
  induction d with
  | nil => simp [containsKey] at h
  | cons kv rest ih =>
    by_cases hk : kv.1 = k
    · simp [dictLookup, hk]
    · have hrest : containsKey rest k = true := by
        simpa [containsKey, hk] using h
      have hne : ¬k = kv.1 := fun hh => hk hh.symm
      simp [dictLookup, hk, hne, ih hrest]

lemma dictLookup_map_update_ne {α : Type u} (k k' : String) (v : α)
    (d : List (String × α)) (h : k' ≠ k) :
    dictLookup (d.map fun kv => if kv.1 = k then (k, v) else kv) k' =
      dictLookup d k' := by
  induction d with
  | nil => rfl
  | cons kv rest ih =>
    by_cases hk : kv.1 = k
    · have hne : ¬k' = kv.1 := fun hh => h (hh.trans hk)
      simp [dictLookup, hk, h, hne, ih]
    · by_cases hk' : k' = kv.1
      · simp [dictLookup, hk, hk']
      · simp [dictLookup, hk, hk', ih]

lemma dictLookup_append_single {α : Type u} (k : String) (v : α)
    (d : List (String × α)) (h : containsKey d k = false) :
    dictLookup (d ++ [(k, v)]) k = some v := by
  induction d with
  | nil => simp [dictLookup]
  | cons kv rest ih =>
    simp only [containsKey, Bool.or_eq_false_iff,
      decide_eq_false_iff_not] at h
    have hk : ¬k = kv.1 := fun hh => h.1 hh.symm
    simp [dictLookup, hk, ih h.2]

lemma dictLookup_append_single_ne {α : Type u} (k k' : String) (v : α)
    (d : List (String × α)) (h : k' ≠ k) :
    dictLookup (d ++ [(k, v)]) k' = dictLookup d k' := by
  induction d with
  | nil => simp [dictLookup, h]
  | cons kv rest ih =>
    by_cases hk : k' = kv.1
    · simp [dictLookup, hk]
    · simp [dictLookup, hk, ih]

lemma dictLookup_dictInsert_self {α : Type u} (d : List (String × α))
    (k : String) (v : α) : dictLookup (dictInsert d k v) k = some v := by
  rw [dictInsert]
  cases h : containsKey d k with
  | true =>
    simp only [if_true]
    exact dictLookup_map_update k v d h
  | false =>
    simp only [Bool.false_eq_true, if_false]
    exact dictLookup_append_single k v d h

lemma dictLookup_dictInsert_ne {α : Type u} (d : List (String × α))
    (k k' : String) (v : α) (h : k' ≠ k) :
    dictLookup (dictInsert d k v) k' = dictLookup d k' := by
  rw [dictInsert]
  cases hc : containsKey d k with
  | true =>
    simp only [if_true]
    exact dictLookup_map_update_ne k k' v d h
  | false =>
    simp only [Bool.false_eq_true, if_false]
    exact dictLookup_append_single_ne k k' v d h

lemma dictLookup_foldl_dictInsert {α : Type u} {β : Type v}
    (key : β → String) (val : β → α) (g : String) :
    ∀ (l : List β) (d0 : List (String × α)),
      dictLookup (l.foldl (fun d x => dictInsert d (key x) (val x)) d0) g =
        match lastFiltered (fun x => key x == g) l with
        | some x => some (val x)
        | none => dictLookup d0 g := by
  intro l
  induction l with
  | nil => intro d0; rfl
  | cons x rest ih =>
    intro d0
    rw [List.foldl_cons, ih]
    cases hrest : lastFiltered (fun x => key x == g) rest with
    | some y => simp [lastFiltered, hrest]
    | none =>
      by_cases hx : key x = g
      · subst hx
        simp [lastFiltered, hrest, dictLookup_dictInsert_self]
      · have hb : (key x == g) = false := by
          simpa using hx
        simp [lastFiltered, hrest, hb,
          dictLookup_dictInsert_ne _ _ _ _ (fun hh => hx hh.symm)]

/-! ## Accessor lemmas: stage 1 (clusternames) -/

lemma cn_cached {b : Backend} {s : AppState} {v : List String}
    (h : s.clusternames = some v) :
    getClusternames b s = (.ok v, s, []) := by
  simp [getClusternames, h]

lemma cn_ok {b : Backend} {s : AppState} {v : List String} {s' : AppState}
    {q : List Request} (h : getClusternames b s = (.ok v, s', q)) :
    s'.clusternames = some v ∧ s'.name = s.name ∧ s'.account = s.account ∧
    s'.clusterdetails = s.clusterdetails ∧
    s'.servergroups = s.servergroups ∧
    s'.instances_by_region = s.instances_by_region := by
  simp only [getClusternames] at h
  cases hs : s.clusternames with
  | some w =>
    rw [hs] at h
    simp only [Prod.mk.injEq, Except.ok.injEq] at h
    obtain ⟨hv, hst, hq⟩ := h
    subst hst
    exact ⟨by rw [hs, hv], rfl, rfl, rfl, rfl, rfl⟩
  | none =>
    rw [hs] at h
    cases hc : clusternamesCalc b s.account.name with
    | error e => rw [hc] at h; simp at h
    | ok w =>
      rw [hc] at h
      simp only [Prod.mk.injEq, Except.ok.injEq] at h
      obtain ⟨hv, hst, hq⟩ := h
      subst hst hv
      exact ⟨rfl, rfl, rfl, rfl, rfl, rfl⟩

lemma cn_error {b : Backend} {s : AppState} {e : Err} {s' : AppState}
    {q : List Request} (h : getClusternames b s = (.error e, s', q)) :
    s' = s ∧ s.clusternames = none ∧ q = [Request.clusters s.name] ∧
    clusternamesCalc b s.account.name = .error e := by
  simp only [getClusternames] at h
  cases hs : s.clusternames with
  | some w => rw [hs] at h; simp at h
  | none =>
    rw [hs] at h
    cases hc : clusternamesCalc b s.account.name with
    | error e2 =>
      rw [hc] at h
      simp only [Prod.mk.injEq, Except.error.injEq] at h
      obtain ⟨he, hst, hq⟩ := h
      exact ⟨hst.symm, rfl, hq.symm, by rw [he]⟩
    | ok w => rw [hc] at h; simp at h

lemma cn_idem {b : Backend} {s : AppState} {v : List String} {s' : AppState}
    {q : List Request} (h : getClusternames b s = (.ok v, s', q)) :
    getClusternames b s' = (.ok v, s', []) :=
  cn_cached (cn_ok h).1

lemma cn_stable {b : Backend} {s : AppState} {r : Except Err (List String)}
    {s' : AppState} {q : List Request} (h : getClusternames b s = (r, s', q)) :
    ∃ q2, getClusternames b s' = (r, s', q2) := by
  cases r with
  | ok v => exact ⟨[], cn_idem h⟩
  | error e =>
    obtain ⟨hst, _, _, _⟩ := cn_error h
    subst hst
    exact ⟨q, h⟩

/-! ## Accessor lemmas: stage 2 (clusterdetails) -/

lemma cd_cached {b : Backend} {s : AppState} {v : List (String × Json)}
    (h : s.clusterdetails = some v) :
    getClusterdetails b s = (.ok v, s, []) := by
  simp [getClusterdetails, h]

lemma cd_ok {b : Backend} {s : AppState} {v : List (String × Json)}
    {s' : AppState} {q : List Request}
    (h : getClusterdetails b s = (.ok v, s', q)) :
    s'.clusterdetails = some v ∧ s'.name = s.name ∧ s'.account = s.account ∧
    s'.servergroups = s.servergroups ∧
    s'.instances_by_region = s.instances_by_region := by
  simp only [getClusterdetails] at h
  cases hs : s.clusterdetails with
  | some w =>
    rw [hs] at h
    simp only [Prod.mk.injEq, Except.ok.injEq] at h
    obtain ⟨hv, hst, hq⟩ := h
    subst hst
    exact ⟨by rw [hs, hv], rfl, rfl, rfl, rfl⟩
  | none =>
    simp only [hs] at h
    rcases hcn : getClusternames b s with ⟨r1, s1, q1⟩
    cases r1 with
    | error e => simp only [hcn] at h; simp at h
    | ok names =>
      rcases hf : fetchDetails b s1.name s1.account.name names [] with ⟨rf, qf⟩
      cases rf with
      | error e => simp only [hcn, hf] at h; simp at h
      | ok d =>
        simp only [hcn, hf, Prod.mk.injEq, Except.ok.injEq] at h
        obtain ⟨hv, hst, hq⟩ := h
        subst hv
        rw [← hst]
        obtain ⟨hslot, hname, hacct, hcd, hsg, hibr⟩ := cn_ok hcn
        exact ⟨rfl, hname, hacct, hsg, hibr⟩

lemma cd_error {b : Backend} {s : AppState} {e : Err} {s' : AppState}
    {q : List Request} (h : getClusterdetails b s = (.error e, s', q)) :
    s'.clusterdetails = none ∧ s'.name = s.name ∧ s'.account = s.account ∧
    s'.servergroups = s.servergroups ∧
    s'.instances_by_region = s.instances_by_region ∧
    (s.clusternames ≠ none → s' = s) := by
  simp only [getClusterdetails] at h
  cases hs : s.clusterdetails with
  | some w => rw [hs] at h; simp at h
  | none =>
    simp only [hs] at h
    rcases hcn : getClusternames b s with ⟨r1, s1, q1⟩
    cases r1 with
    | error e2 =>
      simp only [hcn, Prod.mk.injEq, Except.error.injEq] at h
      obtain ⟨he, hst, hq⟩ := h
      rw [← hst]
      obtain ⟨hss, hnone, _, _⟩ := cn_error hcn
      subst hss
      exact ⟨hs, rfl, rfl, rfl, rfl, fun _ => rfl⟩
    | ok names =>
      rcases hf : fetchDetails b s1.name s1.account.name names [] with ⟨rf, qf⟩
      cases rf with
      | ok d => simp only [hcn, hf] at h; simp at h
      | error e2 =>
        simp only [hcn, hf, Prod.mk.injEq, Except.error.injEq] at h
        obtain ⟨he, hst, hq⟩ := h
        rw [← hst]
        obtain ⟨hslot, hname, hacct, hcd, hsg, hibr⟩ := cn_ok hcn
        refine ⟨by rw [hcd, hs], hname, hacct, hsg, hibr, ?_⟩
        intro hne
        cases hw : s.clusternames with
        | none => exact absurd hw hne
        | some w =>
          have h2 := cn_cached (b := b) hw
          have h3 := h2.symm.trans hcn
          simp only [Prod.mk.injEq, Except.ok.injEq] at h3
          exact h3.2.1.symm

lemma cd_idem {b : Backend} {s : AppState} {v : List (String × Json)}
    {s' : AppState} {q : List Request}
    (h : getClusterdetails b s = (.ok v, s', q)) :
    getClusterdetails b s' = (.ok v, s', []) :=
  cd_cached (cd_ok h).1

lemma cd_stable {b : Backend} {s : AppState}
    {r : Except Err (List (String × Json))} {s' : AppState}
    {q : List Request} (h : getClusterdetails b s = (r, s', q)) :
    ∃ q2, getClusterdetails b s' = (r, s', q2) := by
  cases r with
  | ok v => exact ⟨[], cd_idem h⟩
  | error e =>
    simp only [getClusterdetails] at h
    cases hs : s.clusterdetails with
    | some w => rw [hs] at h; simp at h
    | none =>
      simp only [hs] at h
      rcases hcn : getClusternames b s with ⟨r1, s1, q1⟩
      cases r1 with
      | error e2 =>
        simp only [hcn, Prod.mk.injEq, Except.error.injEq] at h
        obtain ⟨he, hst, hq⟩ := h
        rw [← hst, ← he]
        obtain ⟨hss, _, _, _⟩ := cn_error hcn
        subst hss
        exact ⟨q1, by simp [getClusterdetails, hs, hcn]⟩
      | ok names =>
        rcases hf : fetchDetails b s1.name s1.account.name names []
          with ⟨rf, qf⟩
        cases rf with
        | ok d => simp only [hcn, hf] at h; simp at h
        | error e2 =>
          simp only [hcn, hf, Prod.mk.injEq, Except.error.injEq] at h
          obtain ⟨he, hst, hq⟩ := h
          rw [← hst, ← he]
          obtain ⟨hslot, hname, hacct, hcd, hsg, hibr⟩ := cn_ok hcn
          have hs1 : s1.clusterdetails = none := by rw [hcd, hs]
          exact ⟨qf, by simp [getClusterdetails, hs1, cn_idem hcn, hf]⟩

/-! ## Accessor lemmas: stage 3 (servergroups) -/

lemma sg_cached {b : Backend} {s : AppState} {v : List SG}
    (h : s.servergroups = some v) :
    getServergroups b s = (.ok v, s, []) := by
  simp [getServergroups, h]

lemma sg_ok {b : Backend} {s : AppState} {v : List SG} {s' : AppState}
    {q : List Request} (h : getServergroups b s = (.ok v, s', q)) :
    s'.servergroups = some v ∧ s'.name = s.name ∧ s'.account = s.account ∧
    s'.instances_by_region = s.instances_by_region := by
  simp only [getServergroups] at h
  cases hs : s.servergroups with
  | some w =>
    rw [hs] at h
    simp only [Prod.mk.injEq, Except.ok.injEq] at h
    obtain ⟨hv, hst, hq⟩ := h
    subst hst
    exact ⟨by rw [hs, hv], rfl, rfl, rfl⟩
  | none =>
    simp only [hs] at h
    rcases hcd : getClusterdetails b s with ⟨r1, s1, q1⟩
    cases r1 with
    | error e => simp only [hcd] at h; simp at h
    | ok d =>
      cases hx : extractGroups d with
      | error e => simp only [hcd, hx] at h; simp at h
      | ok gs =>
        simp only [hcd, hx, Prod.mk.injEq, Except.ok.injEq] at h
        obtain ⟨hv, hst, hq⟩ := h
        subst hv
        rw [← hst]
        obtain ⟨hslot, hname, hacct, hsg, hibr⟩ := cd_ok hcd
        exact ⟨rfl, hname, hacct, hibr⟩

lemma sg_error {b : Backend} {s : AppState} {e : Err} {s' : AppState}
    {q : List Request} (h : getServergroups b s = (.error e, s', q)) :
    s'.servergroups = none ∧ s'.name = s.name ∧ s'.account = s.account ∧
    s'.instances_by_region = s.instances_by_region ∧
    (s.clusterdetails ≠ none → s' = s) := by
  simp only [getServergroups] at h
  cases hs : s.servergroups with
  | some w => rw [hs] at h; simp at h
  | none =>
    simp only [hs] at h
    rcases hcd : getClusterdetails b s with ⟨r1, s1, q1⟩
    cases r1 with
    | error e2 =>
      simp only [hcd, Prod.mk.injEq, Except.error.injEq] at h
      obtain ⟨he, hst, hq⟩ := h
      rw [← hst]
      obtain ⟨hslot, hname, hacct, hsg, hibr, hcond⟩ := cd_error hcd
      refine ⟨by rw [hsg, hs], hname, hacct, hibr, ?_⟩
      intro hne
      cases hw : s.clusterdetails with
      | none => exact absurd hw hne
      | some w =>
        have h2 := cd_cached (b := b) hw
        have h3 := h2.symm.trans hcd
        simp at h3
    | ok d =>
      cases hx : extractGroups d with
      | ok gs => simp only [hcd, hx] at h; simp at h
      | error e2 =>
        simp only [hcd, hx, Prod.mk.injEq, Except.error.injEq] at h
        obtain ⟨he, hst, hq⟩ := h
        rw [← hst]
        obtain ⟨hslot, hname, hacct, hsg, hibr⟩ := cd_ok hcd
        refine ⟨by rw [hsg, hs], hname, hacct, hibr, ?_⟩
        intro hne
        cases hw : s.clusterdetails with
        | none => exact absurd hw hne
        | some w =>
          have h2 := cd_cached (b := b) hw
          have h3 := h2.symm.trans hcd
          simp only [Prod.mk.injEq, Except.ok.injEq] at h3
          exact h3.2.1.symm

lemma sg_idem {b : Backend} {s : AppState} {v : List SG} {s' : AppState}
    {q : List Request} (h : getServergroups b s = (.ok v, s', q)) :
    getServergroups b s' = (.ok v, s', []) :=
  sg_cached (sg_ok h).1

lemma sg_stable {b : Backend} {s : AppState} {r : Except Err (List SG)}
    {s' : AppState} {q : List Request}
    (h : getServergroups b s = (r, s', q)) :
    ∃ q2, getServergroups b s' = (r, s', q2) := by
  cases r with
  | ok v => exact ⟨[], sg_idem h⟩
  | error e =>
    simp only [getServergroups] at h
    cases hs : s.servergroups with
    | some w => rw [hs] at h; simp at h
    | none =>
      simp only [hs] at h
      rcases hcd : getClusterdetails b s with ⟨r1, s1, q1⟩
      cases r1 with
      | error e2 =>
        simp only [hcd, Prod.mk.injEq, Except.error.injEq] at h
        obtain ⟨he, hst, hq⟩ := h
        rw [← hst, ← he]
        obtain ⟨q2, h2⟩ := cd_stable hcd
        have hsg1 : s1.servergroups = none := by
          rw [(cd_error hcd).2.2.2.1, hs]
        exact ⟨q2, by simp [getServergroups, hsg1, h2]⟩
      | ok d =>
        cases hx : extractGroups d with
        | ok gs => simp only [hcd, hx] at h; simp at h
        | error e2 =>
          simp only [hcd, hx, Prod.mk.injEq, Except.error.injEq] at h
          obtain ⟨he, hst, hq⟩ := h
          rw [← hst, ← he]
          have hsg1 : s1.servergroups = none := by
            rw [(cd_ok hcd).2.2.2.1, hs]
          exact ⟨[], by simp [getServergroups, hsg1, cd_idem hcd, hx]⟩

/-! ## Accessor lemmas: stage 4 (instances_by_region) -/

lemma ibr_cached {b : Backend} {s : AppState}
    {v : List (String × List String)} (h : s.instances_by_region = some v) :
    getInstancesByRegion b s = (.ok v, s, []) := by
  simp [getInstancesByRegion, h]

lemma ibr_ok {b : Backend} {s : AppState} {v : List (String × List String)}
    {s' : AppState} {q : List Request}
    (h : getInstancesByRegion b s = (.ok v, s', q)) :
    s'.instances_by_region = some v ∧ s'.name = s.name ∧
    s'.account = s.account := by
  simp only [getInstancesByRegion] at h
  cases hs : s.instances_by_region with
  | some w =>
    rw [hs] at h
    simp only [Prod.mk.injEq, Except.ok.injEq] at h
    obtain ⟨hv, hst, hq⟩ := h
    subst hst
    exact ⟨by rw [hs, hv], rfl, rfl⟩
  | none =>
    simp only [hs] at h
    rcases hsg : getServergroups b s with ⟨r1, s1, q1⟩
    cases r1 with
    | error e => simp only [hsg] at h; simp at h
    | ok gs =>
      simp only [hsg, Prod.mk.injEq, Except.ok.injEq] at h
      obtain ⟨hv, hst, hq⟩ := h
      subst hv
      rw [← hst]
      obtain ⟨hslot, hname, hacct, hibr⟩ := sg_ok hsg
      exact ⟨rfl, hname, hacct⟩

lemma ibr_error {b : Backend} {s : AppState} {e : Err} {s' : AppState}
    {q : List Request} (h : getInstancesByRegion b s = (.error e, s', q)) :
    s'.instances_by_region = none ∧ s'.name = s.name ∧
    s'.account = s.account ∧ (s.servergroups ≠ none → s' = s) := by
  simp only [getInstancesByRegion] at h
  cases hs : s.instances_by_region with
  | some w => rw [hs] at h; simp at h
  | none =>
    simp only [hs] at h
    rcases hsg : getServergroups b s with ⟨r1, s1, q1⟩
    cases r1 with
    | ok gs => simp only [hsg] at h; simp at h
    | error e2 =>
      simp only [hsg, Prod.mk.injEq, Except.error.injEq] at h
      obtain ⟨he, hst, hq⟩ := h
      rw [← hst]
      obtain ⟨hslot, hname, hacct, hibr, hcond⟩ := sg_error hsg
      refine ⟨by rw [hibr, hs], hname, hacct, ?_⟩
      intro hne
      cases hw : s.servergroups with
      | none => exact absurd hw hne
      | some w =>
        have h2 := sg_cached (b := b) hw
        have h3 := h2.symm.trans hsg
        simp at h3

lemma ibr_idem {b : Backend} {s : AppState}
    {v : List (String × List String)} {s' : AppState} {q : List Request}
    (h : getInstancesByRegion b s = (.ok v, s', q)) :
    getInstancesByRegion b s' = (.ok v, s', []) :=
  ibr_cached (ibr_ok h).1

lemma ibr_stable {b : Backend} {s : AppState}
    {r : Except Err (List (String × List String))} {s' : AppState}
    {q : List Request} (h : getInstancesByRegion b s = (r, s', q)) :
    ∃ q2, getInstancesByRegion b s' = (r, s', q2) := by
  cases r with
  | ok v => exact ⟨[], ibr_idem h⟩
  | error e =>
    simp only [getInstancesByRegion] at h
    cases hs : s.instances_by_region with
    | some w => rw [hs] at h; simp at h
    | none =>
      simp only [hs] at h
      rcases hsg : getServergroups b s with ⟨r1, s1, q1⟩
      cases r1 with
      | ok gs => simp only [hsg] at h; simp at h
      | error e2 =>
        simp only [hsg, Prod.mk.injEq, Except.error.injEq] at h
        obtain ⟨he, hst, hq⟩ := h
        rw [← hst, ← he]
        obtain ⟨q2, h2⟩ := sg_stable hsg
        have hibr1 : s1.instances_by_region = none := by
          rw [(sg_error hsg).2.2.2.1, hs]
        exact ⟨q2, by simp [getInstancesByRegion, hibr1, h2]⟩

/-! ## Composition lemmas: accessing an earlier property first does not
change a later access's value or final state -/

lemma cd_after_cn {b : Backend} {s : AppState}
    (h : s.clusterdetails = none) :
    (getClusterdetails b (getClusternames b s).2.1).1 =
      (getClusterdetails b s).1 ∧
    (getClusterdetails b (getClusternames b s).2.1).2.1 =
      (getClusterdetails b s).2.1 := by
  rcases hcn : getClusternames b s with ⟨r1, s1, q1⟩
  cases r1 with
  | error e =>
    obtain ⟨hss, _, _, _⟩ := cn_error hcn
    subst hss
    simp
  | ok names =>
    obtain ⟨hslot, hname, hacct, hcd1, hsg1, hibr1⟩ := cn_ok hcn
    have hs1 : s1.clusterdetails = none := by rw [hcd1, h]
    simp only
    simp only [getClusterdetails, h, hs1, hcn, cn_idem hcn]
    rcases hf : fetchDetails b s1.name s1.account.name names [] with ⟨rf, qf⟩
    cases rf <;> simp [hf]

lemma sg_after_cd {b : Backend} {s : AppState}
    (h : s.servergroups = none) :
    (getServergroups b (getClusterdetails b s).2.1).1 =
      (getServergroups b s).1 ∧
    (getServergroups b (getClusterdetails b s).2.1).2.1 =
      (getServergroups b s).2.1 := by
  rcases hcd : getClusterdetails b s with ⟨r1, s1, q1⟩
  cases r1 with
  | error e =>
    obtain ⟨q2, h2⟩ := cd_stable hcd
    have hsg1 : s1.servergroups = none := by
      rw [(cd_error hcd).2.2.2.1, h]
    simp only
    simp only [getServergroups, h, hsg1, hcd, h2]
    exact ⟨trivial, trivial⟩
  | ok d =>
    have hsg1 : s1.servergroups = none := by
      rw [(cd_ok hcd).2.2.2.1, h]
    simp only
    simp only [getServergroups, h, hsg1, hcd, cd_idem hcd]
    cases hx : extractGroups d <;> simp [hx]

lemma ibr_after_sg {b : Backend} {s : AppState}
    (h : s.instances_by_region = none) :
    (getInstancesByRegion b (getServergroups b s).2.1).1 =
      (getInstancesByRegion b s).1 ∧
    (getInstancesByRegion b (getServergroups b s).2.1).2.1 =
      (getInstancesByRegion b s).2.1 := by
  rcases hsg : getServergroups b s with ⟨r1, s1, q1⟩
  cases r1 with
  | error e =>
    obtain ⟨q2, h2⟩ := sg_stable hsg
    have hibr1 : s1.instances_by_region = none := by
      rw [(sg_error hsg).2.2.2.1, h]
    simp only
    simp only [getInstancesByRegion, h, hibr1, hsg, h2]
    exact ⟨trivial, trivial⟩
  | ok gs =>
    have hibr1 : s1.instances_by_region = none := by
      rw [(sg_ok hsg).2.2.2, h]
    simp only
    simp only [getInstancesByRegion, h, hibr1, hsg, sg_idem hsg]
    exact ⟨trivial, trivial⟩

/-! ## The stage-2 fetch loop, characterized -/

lemma fetchDetails_ok {b : Backend} {app acct : String} :
    ∀ (names : List String) (acc d : List (String × Json))
      (q : List Request), fetchDetails b app acct names acc = (.ok d, q) →
      q = names.map (fun n => Request.detail app acct n) ∧
      (∀ n, n ∈ names →
        ∃ body, b.detailResp n = .ok body ∧ dictLookup d n = some body) ∧
      (∀ n, n ∉ names → dictLookup d n = dictLookup acc n) := by
  intro names
  induction names with
  | nil =>
    intro acc d q h
    simp only [fetchDetails, Prod.mk.injEq, Except.ok.injEq] at h
    obtain ⟨hd, hq⟩ := h
    subst hd hq
    exact ⟨rfl, by simp, fun n _ => rfl⟩
  | cons n rest ih =>
    intro acc d q h
    simp only [fetchDetails] at h
    cases hr : b.detailResp n with
    | error e => simp only [hr] at h; simp at h
    | ok j =>
      simp only [hr] at h
      rcases hrec : fetchDetails b app acct rest (dictInsert acc n j)
        with ⟨rr, qr⟩
      rw [hrec] at h
      cases rr with
      | error e => simp at h
      | ok d2 =>
        simp only [Prod.mk.injEq, Except.ok.injEq] at h
        obtain ⟨hd, hq⟩ := h
        subst hd
        obtain ⟨ihq, ihmem, ihout⟩ := ih (dictInsert acc n j) d2 qr hrec
        refine ⟨by rw [← hq, ihq, List.map_cons], ?_, ?_⟩
        · intro m hm
          by_cases hmr : m ∈ rest
          · exact ihmem m hmr
          · have hmn : m = n := by
              rcases List.mem_cons.mp hm with h1 | h1
              · exact h1
              · exact absurd h1 hmr
            subst hmn
            refine ⟨j, hr, ?_⟩
            rw [ihout m hmr, dictLookup_dictInsert_self]
        · intro m hm
          have hmn : m ≠ n := fun hh => hm (hh ▸ List.mem_cons_self n rest)
          have hmr : m ∉ rest := fun hh => hm (List.mem_cons_of_mem n hh)
          rw [ihout m hmr, dictLookup_dictInsert_ne _ _ _ _ hmn]

/-! ## Claims about the pipeline accessors -/

/-- C3: each derived property is memoized per instance: after a
successful access yields value `v` and state `s'`, accessing the same
property on `s'` (same fixed backend) returns the identical value `v`,
leaves the state `s'` unchanged, and issues no network request. -/
theorem derived_properties_memoized (b : Backend) (s : AppState) :
    (∀ v s' q, getClusternames b s = (.ok v, s', q) →
      getClusternames b s' = (.ok v, s', [])) ∧
    (∀ v s' q, getClusterdetails b s = (.ok v, s', q) →
      getClusterdetails b s' = (.ok v, s', [])) ∧
    (∀ v s' q, getServergroups b s = (.ok v, s', q) →
      getServergroups b s' = (.ok v, s', [])) ∧
    (∀ v s' q, getInstancesByRegion b s = (.ok v, s', q) →
      getInstancesByRegion b s' = (.ok v, s', [])) :=
  ⟨fun _ _ _ h => cn_idem h, fun _ _ _ h => cd_idem h,
   fun _ _ _ h => sg_idem h, fun _ _ _ h => ibr_idem h⟩

/-- C3 witness: on the end-to-end example backend, the first direct
access of `instances_by_region` computes all four stages (two requests),
and a repeated access of each property on the resulting states returns
the identical value with no further request. -/
theorem derived_properties_memoized_witness :
    getInstancesByRegion wBackend wApp =
      (.ok [("checkout-test-v001", ["i-aaa", "i-bbb"])], wApp4,
       [Request.clusters "checkout",
        Request.detail "checkout" "test" "checkout-test-v001"]) ∧
    getInstancesByRegion wBackend wApp4 =
      (.ok [("checkout-test-v001", ["i-aaa", "i-bbb"])], wApp4, []) ∧
    getClusternames wBackend wApp1 =
      (.ok ["checkout-test-v001"], wApp1, []) ∧
    getClusterdetails wBackend wApp2 =
      (.ok [("checkout-test-v001", wDetail)], wApp2, []) ∧
    getServergroups wBackend wApp3 =
      (.ok [("us-east-1", "checkout-test-v001", ["i-aaa", "i-bbb"])],
       wApp3, []) :=
  ⟨rfl,
   (derived_properties_memoized wBackend wApp).2.2.2
     [("checkout-test-v001", ["i-aaa", "i-bbb"])] wApp4
     [Request.clusters "checkout",
      Request.detail "checkout" "test" "checkout-test-v001"] rfl,
   (derived_properties_memoized wBackend wApp).1
     ["checkout-test-v001"] wApp1 [Request.clusters "checkout"] rfl,
   (derived_properties_memoized wBackend wApp).2.1
     [("checkout-test-v001", wDetail)] wApp2
     [Request.clusters "checkout",
      Request.detail "checkout" "test" "checkout-test-v001"] rfl,
   (derived_properties_memoized wBackend wApp).2.2.1
     [("us-east-1", "checkout-test-v001", ["i-aaa", "i-bbb"])] wApp3
     [Request.clusters "checkout",
      Request.detail "checkout" "test" "checkout-test-v001"] rfl⟩

/-- C5: a failed stage leaves its own cache slot unset and caches no
partial value (downstream slots are untouched; when the stage's inputs
were already cached, the whole state is unchanged), and the error of a
failing inner stage propagates unmodified through the outer accessors. -/
theorem stage_failure_leaves_cache_unset (b : Backend) (s : AppState) :
    (∀ e s1 q, getClusternames b s = (.error e, s1, q) →
      s1 = s ∧ s.clusternames = none) ∧
    (∀ e s1 q, getClusterdetails b s = (.error e, s1, q) →
      s1.clusterdetails = none ∧ s1.servergroups = s.servergroups ∧
      s1.instances_by_region = s.instances_by_region ∧
      (s.clusternames ≠ none → s1 = s)) ∧
    (∀ e s1 q, getServergroups b s = (.error e, s1, q) →
      s1.servergroups = none ∧
      s1.instances_by_region = s.instances_by_region ∧
      (s.clusterdetails ≠ none → s1 = s)) ∧
    (∀ e s1 q, getInstancesByRegion b s = (.error e, s1, q) →
      s1.instances_by_region = none ∧ (s.servergroups ≠ none → s1 = s)) ∧
    (s.clusterdetails = none → ∀ e s1 q,
      getClusternames b s = (.error e, s1, q) →
      getClusterdetails b s = (.error e, s1, q)) ∧
    (s.servergroups = none → ∀ e s1 q,
      getClusterdetails b s = (.error e, s1, q) →
      getServergroups b s = (.error e, s1, q)) ∧
    (s.instances_by_region = none → ∀ e s1 q,
      getServergroups b s = (.error e, s1, q) →
      getInstancesByRegion b s = (.error e, s1, q)) := by
  refine ⟨?_, ?_, ?_, ?_, ?_, ?_, ?_⟩
  · intro e s1 q h
    exact ⟨(cn_error h).1, (cn_error h).2.1⟩
  · intro e s1 q h
    obtain ⟨h1, _, _, h4, h5, h6⟩ := cd_error h
    exact ⟨h1, h4, h5, h6⟩
  · intro e s1 q h
    obtain ⟨h1, _, _, h4, h5⟩ := sg_error h
    exact ⟨h1, h4, h5⟩
  · intro e s1 q h
    obtain ⟨h1, _, _, h4⟩ := ibr_error h
    exact ⟨h1, h4⟩
  · intro h0 e s1 q h
    simp [getClusterdetails, h0, h]
  · intro h0 e s1 q h
    simp [getServergroups, h0, h]
  · intro h0 e s1 q h
    simp [getInstancesByRegion, h0, h]

/-- C5 witness: on an unreachable backend, every accessor of a fresh
view fails with the transport error, the state is left fully unchanged
(all slots still unset), and the stage-1 error propagates unmodified
through the stage-2 accessor. -/
theorem stage_failure_witness :
    getClusternames wBadBackend wApp =
      (.error .transport, wApp, [Request.clusters "checkout"]) ∧
    (wApp = wApp ∧ wApp.clusternames = none) ∧
    getClusterdetails wBadBackend wApp =
      (.error .transport, wApp, [Request.clusters "checkout"]) ∧
    (wApp.clusterdetails = none ∧ wApp.servergroups = wApp.servergroups ∧
      wApp.instances_by_region = wApp.instances_by_region ∧
      (wApp.clusternames ≠ none → wApp = wApp)) ∧
    getServergroups wBadBackend wApp =
      (.error .transport, wApp, [Request.clusters "checkout"]) ∧
    getInstancesByRegion wBadBackend wApp =
      (.error .transport, wApp, [Request.clusters "checkout"]) ∧
    (wApp.instances_by_region = none ∧
      (wApp.servergroups ≠ none → wApp = wApp)) :=
  ⟨rfl,
   (stage_failure_leaves_cache_unset wBadBackend wApp).1 .transport wApp
     [Request.clusters "checkout"] rfl,
   (stage_failure_leaves_cache_unset wBadBackend wApp).2.2.2.2.1 rfl
     .transport wApp [Request.clusters "checkout"] rfl,
   (stage_failure_leaves_cache_unset wBadBackend wApp).2.1 .transport wApp
     [Request.clusters "checkout"] rfl,
   (stage_failure_leaves_cache_unset wBadBackend wApp).2.2.2.2.2.1 rfl
     .transport wApp [Request.clusters "checkout"] rfl,
   (stage_failure_leaves_cache_unset wBadBackend wApp).2.2.2.2.2.2 rfl
     .transport wApp [Request.clusters "checkout"] rfl,
   (stage_failure_leaves_cache_unset wBadBackend wApp).2.2.2.1 .transport
     wApp [Request.clusters "checkout"] rfl⟩

/-- C6: when the cluster-detail stage completes from an unset slot, its
request log appends exactly one detail fetch per stage-1 cluster name in
list order to the stage-1 requests, the key set of the resulting dict is
exactly the stage-1 name set, and each key maps to the decoded response
body of its own fetch. -/
theorem clusterdetails_stage_spec (b : Backend) (s : AppState)
    (h0 : s.clusterdetails = none)
    (names : List String) (s1 : AppState) (q1 : List Request)
    (hcn : getClusternames b s = (.ok names, s1, q1))
    (d : List (String × Json)) (s2 : AppState) (q2 : List Request)
    (hcd : getClusterdetails b s = (.ok d, s2, q2)) :
    q2 = q1 ++ names.map (fun n => Request.detail s.name s.account.name n) ∧
    (∀ n, n ∈ names ↔ dictLookup d n ≠ none) ∧
    (∀ n, n ∈ names →
      ∃ body, b.detailResp n = .ok body ∧ dictLookup d n = some body) := by
  simp only [getClusterdetails, h0, hcn] at hcd
  rcases hf : fetchDetails b s1.name s1.account.name names [] with ⟨rf, qf⟩
  rw [hf] at hcd
  cases rf with
  | error e => simp at hcd
  | ok d2 =>
    simp only [Prod.mk.injEq, Except.ok.injEq] at hcd
    obtain ⟨hd, hst, hq⟩ := hcd
    subst hd
    obtain ⟨ihq, ihmem, ihout⟩ := fetchDetails_ok names [] d2 qf hf
    obtain ⟨_, hname, hacct, _, _, _⟩ := cn_ok hcn
    refine ⟨?_, ?_, ihmem⟩
    · rw [← hq, ihq, hname, hacct]
    · intro n
      constructor
      · intro hn
        obtain ⟨body, _, hl⟩ := ihmem n hn
        rw [hl]
        exact fun hh => Option.noConfusion hh
      · intro hl
        by_contra hn
        exact hl (ihout n hn)

/-- C6 witness: the end-to-end example — one cluster name, one detail
fetch after the cluster-listing request, and the dict maps the cluster
name to the decoded body of its fetch. -/
theorem clusterdetails_stage_spec_witness :
    getClusterdetails wBackend wApp =
      (.ok [("checkout-test-v001", wDetail)], wApp2,
       [Request.clusters "checkout",
        Request.detail "checkout" "test" "checkout-test-v001"]) ∧
    ([Request.clusters "checkout",
      Request.detail "checkout" "test" "checkout-test-v001"] =
        [Request.clusters "checkout"] ++
          ["checkout-test-v001"].map
            (fun n => Request.detail wApp.name wApp.account.name n) ∧
     (∀ n, n ∈ ["checkout-test-v001"] ↔
        dictLookup [("checkout-test-v001", wDetail)] n ≠ none) ∧
     (∀ n, n ∈ ["checkout-test-v001"] →
        ∃ body, wBackend.detailResp n = .ok body ∧
          dictLookup [("checkout-test-v001", wDetail)] n = some body)) :=
  ⟨rfl,
   clusterdetails_stage_spec wBackend wApp rfl
     ["checkout-test-v001"] wApp1 [Request.clusters "checkout"] rfl
     [("checkout-test-v001", wDetail)] wApp2
     [Request.clusters "checkout",
      Request.detail "checkout" "test" "checkout-test-v001"] rfl⟩

/-- C7: on a freshly constructed view, accessing `instances_by_region`
directly produces the same value and the same final state as accessing
`clusternames`, `clusterdetails`, `servergroups` and
`instances_by_region` in order on an identical fresh instance. -/
theorem pipeline_direct_eq_sequential (b : Backend) (name : String)
    (account : Account) :
    (getInstancesByRegion b (App.init name account)).1 =
      (getInstancesByRegion b
        (getServergroups b
          (getClusterdetails b
            (getClusternames b (App.init name account)).2.1).2.1).2.1).1 ∧
    (getInstancesByRegion b (App.init name account)).2.1 =
      (getInstancesByRegion b
        (getServergroups b
          (getClusterdetails b
            (getClusternames b (App.init name account)).2.1).2.1).2.1).2.1 := by
  have h2 := cd_after_cn (b := b) (s := App.init name account) rfl
  have h3 := sg_after_cd (b := b) (s := App.init name account) rfl
  have h4 := ibr_after_sg (b := b) (s := App.init name account) rfl
  constructor
  · rw [h2.2, h3.2, h4.1]
  · rw [h2.2, h3.2, h4.2]

/-! ## Claims about the region-regroup stage -/

/-- C1 counterexample: with runs `g1`, `g2`, `g1` after the region sort,
the claim predicts `g1 ↦ ["i-1"]` (first run) but the code's dict write
per run makes the last run win: `g1 ↦ ["i-3"]`. -/
theorem c1_counterexample :
    dictLookup (instances_by_region_calc c1input) "g1" ≠ some ["i-1"] ∧
    dictLookup (instances_by_region_calc c1input) "g1" = some ["i-3"] := by
  decide

/-- C1 amended: the result maps each group name to the instance list of
the first element of its *last* run among the consecutive runs of the
region-sorted sequence (a later non-adjacent run of the same group name
overwrites the earlier run's entry), and holds no other keys. -/
theorem instances_by_region_last_run (groups : List SG) (g : String) :
    dictLookup (instances_by_region_calc groups) g =
      match lastFiltered (fun run => groupOf run.1 == g)
          (chunkRuns (sortByRegion groups)) with
      | some run => some (instancesOf run.1)
      | none => none := by
  rw [instances_by_region_calc, dictLookup_foldl_dictInsert]
  cases lastFiltered (fun run => groupOf run.1 == g)
      (chunkRuns (sortByRegion groups)) with
  | some run => rfl
  | none => rfl

/-- C2 counterexample: on the spec's example the stage does not yield
exactly `{"g1": ["i-1"]}` — the `g2` run also writes its entry. -/
theorem c2_counterexample :
    instances_by_region_calc c2input ≠ [("g1", ["i-1"])] := by
  decide

/-- C2 amended: the spec's example yields exactly
`{"g1": ["i-1"], "g2": ["i-2"]}`: the two `g1` entries are adjacent after
the region sort, so they form one run whose first instance list
`["i-1"]` is kept and `["i-3"]` is dropped (not merged), and the `g2`
run contributes its own entry. -/
theorem c2_amended :
    instances_by_region_calc c2input =
      [("g1", ["i-1"]), ("g2", ["i-2"])] := by
  decide

/-! ## Claims about the utility and account layer -/

/-- C8: `flatten` returns the concatenation of the inner lists in
outer-then-inner order, with no deduplication and no sorting, for any
value of the unused `self` parameter; empty outer or inner lists
contribute nothing. -/
theorem flatten_concats :
    (∀ (σ : Type) (self : σ) (α : Type) (deeplist : List (List α)),
        flatten self deeplist = deeplist.flatten) ∧
    flatten () ([] : List (List Int)) = [] ∧
    flatten () [[1, 2], [], [3]] = [1, 2, 3] ∧
    flatten () [[1, 1], [2]] = [(1 : Int), 1, 2] := by
  refine ⟨fun σ self α deeplist => ?_, rfl, rfl, rfl⟩
  induction deeplist with
  | nil => rfl
  | cons hd tl ih =>
    simpa [flatten, List.flatten] using ih

/-- C9: one full run of the backoff generator yields exactly
`[1, 3, 5, 7, 9]`: odd values starting at 1, stepping by 2, all below 10;
a fresh invocation restarts from 1 (`gen_nums` is the sequence of one
fresh invocation, starting at `n = 1`). -/
theorem gen_nums_eq :
    gen_nums = [1, 3, 5, 7, 9] ∧
    gen_nums.head? = some 1 ∧
    (∀ x ∈ gen_nums, x % 2 = 1 ∧ x < 10) ∧
    List.Chain' (fun a b => b = a + 2) gen_nums := by
  have h : gen_nums = [1, 3, 5, 7, 9] := by
    rw [gen_nums]
    rw [gen_nums_from, gen_nums_from, gen_nums_from, gen_nums_from,
      gen_nums_from, gen_nums_from]
    norm_num
  refine ⟨h, ?_, ?_, ?_⟩ <;> rw [h]
  · decide
  · decide
  · simp [List.chain'_cons]

lemma number_prod {a : Account} (h : a.name = "prod") :
    a.number = .ok "1234567890" := by
  simp [Account.number, h, accountnumber, dictLookup]

lemma number_test {a : Account} (h : a.name = "test") :
    a.number = .ok "0123456789" := by
  simp [Account.number, h, accountnumber, dictLookup]

lemma number_other {a : Account} (h1 : a.name ≠ "prod")
    (h2 : a.name ≠ "test") : a.number = .error .unsupportedAccount := by
  simp [Account.number, h1, h2]

/-- C4: `Account.number` maps `prod` to `"1234567890"` and `test` to
`"0123456789"`, and fails with the unsupported-account error for every
other name — the guard runs before the table lookup, so no other outcome
is possible. -/
theorem account_number_spec (a : Account) :
    (a.name = "prod" → a.number = .ok "1234567890") ∧
    (a.name = "test" → a.number = .ok "0123456789") ∧
    (a.name ≠ "prod" → a.name ≠ "test" →
      a.number = .error .unsupportedAccount) :=
  ⟨number_prod, number_test, number_other⟩

/-- C4 witness: concrete resolutions for `prod`, `test` and a
non-recognized name. -/
theorem account_number_spec_witness :
    Account.number ⟨"prod"⟩ = .ok "1234567890" ∧
    Account.number ⟨"test"⟩ = .ok "0123456789" ∧
    Account.number ⟨"dev"⟩ = .error .unsupportedAccount :=
  ⟨(account_number_spec ⟨"prod"⟩).1 rfl,
   (account_number_spec ⟨"test"⟩).2.1 rfl,
   (account_number_spec ⟨"dev"⟩).2.2 (by decide) (by decide)⟩

/-- C10: the constructor eagerly evaluates `number` (via the diagnostic
record), so constructing an `Account` with an unrecognized name fails
inside the constructor and only accounts with recognized names exist. -/
theorem account_init_spec (name : String) :
    (name ≠ "prod" → name ≠ "test" →
      Account.init name = .error .unsupportedAccount) ∧
    (name = "prod" ∨ name = "test" → Account.init name = .ok ⟨name⟩) := by
  constructor
  · intro h1 h2
    rw [Account.init, number_other (a := ⟨name⟩) h1 h2]
  · rintro (h | h)
    · rw [Account.init, number_prod (a := ⟨name⟩) h]
    · rw [Account.init, number_test (a := ⟨name⟩) h]

/-- C10 witness: a concrete rejected construction and a concrete
accepted one. -/
theorem account_init_spec_witness :
    Account.init "dev" = .error .unsupportedAccount ∧
    Account.init "prod" = .ok ⟨"prod"⟩ :=
  ⟨(account_init_spec "dev").1 (by decide) (by decide),
   (account_init_spec "prod").2 (Or.inl rfl)⟩
